import Mathlib

/-!
Verification of the `eithr` Rust crate: a two-variant generic sum type
`Either<L, R>` with constructors `Left` and `Right`, and its operation set
(`resolve`, `take_left`, `take_right`, `map_left`, `map_right`, `transpose`,
`copied`, `cloned`, structural equality, hashing, debug formatting, and the
conversion `Either<L, ()> -> Option<L>`).

Each Rust function is embedded as a Lean definition with the same name and
the same case structure.  Trait methods supplied by the held types (the
`==` of `PartialEq`, the `hash` of `Hash`, `clone` of `Clone`, the `fmt`
of `Debug`) are passed in as explicit function parameters, since in Rust
they are caller-chosen capabilities of the generic parameters `L` and `R`.
-/

namespace Eithr

universe u v w

/-- The enum `Either` from src/lib.rs: a generic sum type of two types,
with variants `Left` and `Right`. -/
inductive Either (L : Type u) (R : Type v) where
  | Left : L → Either L R
  | Right : R → Either L R

open Either

/-- `Either::is_left`: `matches!(self, Left(_))`. -/
def Either.is_left : Either L R → Bool
  | Left _ => true
  | Right _ => false

/-- `Either::is_right`: `!self.is_left()`. -/
def Either.is_right (e : Either L R) : Bool :=
  !e.is_left

/-- `Either::resolve`: applies `left` to a `Left` payload and `right` to a
`Right` payload, returning the resolved value. -/
def Either.resolve (e : Either L R) (left : L → X) (right : R → X) : X :=
  match e with
  | Left l => left l
  | Right r => right r

/-- `Either::take_left`: `Some(l)` on `Left(l)`, else `None`. -/
def Either.take_left : Either L R → Option L
  | Left l => some l
  | Right _ => none

/-- `Either::take_right`: `Some(r)` on `Right(r)`, else `None`. -/
def Either.take_right : Either L R → Option R
  | Left _ => none
  | Right r => some r

/-- `Either::map_left`: applies `f` to a wrapped `Left` value, leaving a
`Right` value untouched. -/
def Either.map_left (e : Either L R) (f : L → X) : Either X R :=
  match e with
  | Left l => Left (f l)
  | Right r => Right r

/-- `Either::map_right`: applies `f` to a wrapped `Right` value, leaving a
`Left` value untouched. -/
def Either.map_right (e : Either L R) (f : R → Y) : Either L Y :=
  match e with
  | Left l => Left l
  | Right r => Right (f r)

/-- `Either::transpose`: returns the inner value in the alternate variant. -/
def Either.transpose : Either L R → Either R L
  | Left lr => Right lr
  | Right rl => Left rl

/-- `Either::copied` (requires `L: Copy, R: Copy`): a bitwise copy `*l` of
the inner value, returned in the same variant.  A `Copy` dereference is an
identity on the value, so the embedding rebuilds the same payload. -/
def Either.copied : Either L R → Either L R
  | Left l => Left l
  | Right r => Right r

/-- `Either::cloned` (requires `L: Clone, R: Clone`): clones the inner value
and returns it in the same variant.  The `clone` methods of `L` and `R` are
the explicit parameters `cloneL` and `cloneR`. -/
def Either.cloned (e : Either L R) (cloneL : L → L) (cloneR : R → R) :
    Either L R :=
  match e with
  | Left l => Left (cloneL l)
  | Right r => Right (cloneR r)

/-- `impl Clone for Either`: clones the inner value in the same variant,
with the `clone` methods of `L` and `R` as explicit parameters. -/
def Either.clone (e : Either L R) (cloneL : L → L) (cloneR : R → R) :
    Either L R :=
  match e with
  | Left l => Left (cloneL l)
  | Right r => Right (cloneR r)

/-- `impl PartialEq for Either`: `Left(lx) == Left(ly)` iff `lx == ly`,
`Right(rx) == Right(ry)` iff `rx == ry`, and mixed tags compare unequal.
The `==` of `L` and `R` are the explicit parameters `eqL` and `eqR`. -/
def Either.eq (eqL : L → L → Bool) (eqR : R → R → Bool) :
    Either L R → Either L R → Bool
  | Left lx, Left ly => eqL lx ly
  | Right rx, Right ry => eqR rx ry
  | _, _ => false

/-- `impl Hash for Either`: feeds only the active held value to the hasher
state; the tag is not mixed in.  A hasher is modelled as a state `S`
transformed by the `hash` methods `hashL` and `hashR` of the held types. -/
def Either.hash (e : Either L R) (hashL : L → S → S) (hashR : R → S → S)
    (state : S) : S :=
  match e with
  | Left l => hashL l state
  | Right r => hashR r state

/-- The variant name used by `impl Debug for Either` in `debug_tuple`. -/
def Either.tag_name : Either L R → String
  | Left _ => "Left"
  | Right _ => "Right"

/-- `impl Debug for Either`: `f.debug_tuple("Left").field(l).finish()`
renders as the tag name with the held value nested in parentheses.  The
`Debug` renderings of `L` and `R` are the parameters `dbgL` and `dbgR`. -/
def Either.fmt (e : Either L R) (dbgL : L → String) (dbgR : R → String) :
    String :=
  match e with
  | Left l => "Left(" ++ dbgL l ++ ")"
  | Right r => "Right(" ++ dbgR r ++ ")"

/-- `impl From<Either<L, ()>> for Option<L>`:
`either.resolve(|l| Some(l), |_| None)`. -/
def option_from (e : Either L Unit) : Option L :=
  e.resolve (fun l => some l) (fun _ => none)

/-- Claim C1: for every pair of functions `f : L → X` and `g : R → X`,
`resolve` applied to `Left l` equals `f l` and applied to `Right r` equals
`g r`; exactly one of the two functions is applied and the other is
discarded — in particular the result on `Left l` does not depend on `g`,
and the result on `Right r` does not depend on `f`. -/
theorem resolve_spec (L R X : Type) (f f' : L → X) (g g' : R → X)
    (l : L) (r : R) :
    (Left l : Either L R).resolve f g = f l ∧
    (Right r : Either L R).resolve f g = g r ∧
    (Left l : Either L R).resolve f g = (Left l : Either L R).resolve f g' ∧
    (Right r : Either L R).resolve f g = (Right r : Either L R).resolve f' g :=
  ⟨rfl, rfl, rfl, rfl⟩

/-- Claim C2: `take_left` on `Left l` yields `some l` and on `Right r`
yields `none`; `take_right` on `Right r` yields `some r` and on `Left l`
yields `none`.  Both are total Lean functions into `Option`, so a miss is
reported only as the empty optional, never as a fault. -/
theorem take_spec (L R : Type) (l : L) (r : R) :
    (Left l : Either L R).take_left = some l ∧
    (Left l : Either L R).take_right = none ∧
    (Right r : Either L R).take_right = some r ∧
    (Right r : Either L R).take_left = none :=
  ⟨rfl, rfl, rfl, rfl⟩

/-- Claim C3: structural equality holds iff the two containers carry the
same tag and their held values are equal under the held types' equality; a
`Left` and a `Right` container are never equal; and when the held types'
equalities are reflexive, symmetric and transitive, so is the container
equality. -/
theorem eq_spec (L R : Type) (eqL : L → L → Bool) (eqR : R → R → Bool)
    (hLr : ∀ x, eqL x x = true) (hRr : ∀ x, eqR x x = true)
    (hLs : ∀ x y, eqL x y = eqL y x) (hRs : ∀ x y, eqR x y = eqR y x)
    (hLt : ∀ x y z, eqL x y = true → eqL y z = true → eqL x z = true)
    (hRt : ∀ x y z, eqR x y = true → eqR y z = true → eqR x z = true) :
    (∀ lx ly : L, Either.eq eqL eqR (Left lx) (Left ly) = eqL lx ly) ∧
    (∀ rx ry : R, Either.eq eqL eqR (Right rx) (Right ry) = eqR rx ry) ∧
    (∀ (l : L) (r : R), Either.eq eqL eqR (Left l) (Right r) = false ∧
      Either.eq eqL eqR (Right r) (Left l) = false) ∧
    (∀ a : Either L R, Either.eq eqL eqR a a = true) ∧
    (∀ a b : Either L R, Either.eq eqL eqR a b = Either.eq eqL eqR b a) ∧
    (∀ a b c : Either L R, Either.eq eqL eqR a b = true →
      Either.eq eqL eqR b c = true → Either.eq eqL eqR a c = true) := by
  refine ⟨fun _ _ => rfl, fun _ _ => rfl, fun _ _ => ⟨rfl, rfl⟩, ?_, ?_, ?_⟩
  · intro a
    cases a with
    | Left l => exact hLr l
    | Right r => exact hRr r
  · intro a b
    cases a <;> cases b <;> simp [Either.eq] <;> first
      | apply hLs | apply hRs
  · intro a b c hab hbc
    cases a <;> cases b <;> cases c <;>
      simp_all [Either.eq]
    · exact hLt _ _ _ hab hbc
    · exact hRt _ _ _ hab hbc

/-- Claim C3 witness: the structural-equality specification instantiated at
`L = R = Bool` with boolean equality on both sides. -/
theorem eq_spec_witness :
    (∀ lx ly : Bool,
      Either.eq (fun a b => a == b) (fun a b => a == b)
        (Left lx : Either Bool Bool) (Left ly) = (lx == ly)) ∧
    (∀ a : Either Bool Bool,
      Either.eq (fun a b => a == b) (fun a b => a == b) a a = true) := by
  have h := eq_spec Bool Bool (fun a b => a == b) (fun a b => a == b)
    (by decide) (by decide) (by decide) (by decide) (by decide) (by decide)
  exact ⟨h.1, h.2.2.2.1⟩

/-- Claim C4: `transpose` is an involution — transposing twice returns the
original container — and a single `transpose` maps `Left v` to `Right v`
and `Right v` to `Left v` with the held value unchanged. -/
theorem transpose_spec (L R : Type) (c : Either L R) (l : L) (r : R) :
    c.transpose.transpose = c ∧
    (Left l : Either L R).transpose = Right l ∧
    (Right r : Either L R).transpose = Left r := by
  refine ⟨?_, rfl, rfl⟩
  cases c <;> rfl

/-- Claim C5: `map_left f` sends `Left l` to `Left (f l)` and passes
`Right r` through unchanged; `map_left id` is the identity on every
container; and symmetrically for `map_right`. -/
theorem map_spec (L R X Y : Type) (f : L → X) (g : R → Y)
    (l : L) (r : R) (c : Either L R) :
    (Left l : Either L R).map_left f = Left (f l) ∧
    (Right r : Either L R).map_left f = Right r ∧
    (Right r : Either L R).map_right g = Right (g r) ∧
    (Left l : Either L R).map_right g = Left l ∧
    c.map_left id = c ∧
    c.map_right id = c := by
  refine ⟨rfl, rfl, rfl, rfl, ?_, ?_⟩ <;> cases c <;> rfl

/-- Claim C6: hashing feeds exactly the active held value to the hasher and
never mixes in the tag: on any hasher state `s`, hashing `Left x` transforms
`s` exactly as the held type's own hash of `x` does, likewise for `Right x`;
hence when `L = R`, `Left x` and `Right x` hash identically. -/
theorem hash_spec (L R S : Type) (hashL : L → S → S) (hashR : R → S → S)
    (x : L) (y : R) (s : S) (T : Type) (hashT : T → S → S) (t : T) :
    (Left x : Either L R).hash hashL hashR s = hashL x s ∧
    (Right y : Either L R).hash hashL hashR s = hashR y s ∧
    (Left t : Either T T).hash hashT hashT s
      = (Right t : Either T T).hash hashT hashT s :=
  ⟨rfl, rfl, rfl⟩

/-- Claim C7: converting an `Either L Unit` to an optional yields `some x`
from `Left x` and `none` from `Right ()`. -/
theorem option_from_spec (L : Type) (x : L) :
    option_from (Left x : Either L Unit) = some x ∧
    option_from (Right () : Either L Unit) = none :=
  ⟨rfl, rfl⟩

/-- Claim C8: debug formatting renders every container as its tag name with
the held value nested inside in parentheses; for a container holding the
first alternative the rendering is the tag name applied to the value. -/
theorem fmt_spec (L R : Type) (dbgL : L → String) (dbgR : R → String)
    (c : Either L R) (l : L) :
    c.fmt dbgL dbgR = c.tag_name ++ "(" ++
      (c.resolve dbgL dbgR) ++ ")" ∧
    (Left l : Either L R).fmt dbgL dbgR = "Left(" ++ dbgL l ++ ")" := by
  refine ⟨?_, rfl⟩
  cases c <;> rfl

/-- Claim C9: both duplication paths return a container structurally equal
to the original with the same tag — `copied` is literally the identity (a
`Copy` dereference copies the payload bit-for-bit), and `cloned` is equal
to the original whenever the held types' `clone` methods produce values
equal to their inputs; under the same conditions `copied` and `cloned`
agree, and the `Clone` impl coincides with `cloned`. -/
theorem duplicate_spec (L R : Type) (eqL : L → L → Bool)
    (eqR : R → R → Bool) (cloneL : L → L) (cloneR : R → R)
    (hLr : ∀ x, eqL x x = true) (hRr : ∀ x, eqR x x = true)
    (hLc : ∀ x, eqL (cloneL x) x = true) (hRc : ∀ x, eqR (cloneR x) x = true)
    (hLs : ∀ x y, eqL x y = eqL y x) (hRs : ∀ x y, eqR x y = eqR y x)
    (c : Either L R) :
    c.copied = c ∧
    Either.eq eqL eqR c.copied c = true ∧
    Either.eq eqL eqR (c.cloned cloneL cloneR) c = true ∧
    Either.eq eqL eqR c.copied (c.cloned cloneL cloneR) = true ∧
    c.clone cloneL cloneR = c.cloned cloneL cloneR := by
  cases c with
  | Left l =>
    refine ⟨rfl, hLr l, hLc l, ?_, rfl⟩
    show eqL l (cloneL l) = true
    rw [hLs]
    exact hLc l
  | Right r =>
    refine ⟨rfl, hRr r, hRc r, ?_, rfl⟩
    show eqR r (cloneR r) = true
    rw [hRs]
    exact hRc r

/-- Claim C9 witness: the duplication specification instantiated at
`L = R = Bool` with boolean equality and the identity as `clone`. -/
theorem duplicate_spec_witness :
    (Left true : Either Bool Bool).copied = Left true ∧
    Either.eq (fun a b => a == b) (fun a b => a == b)
      ((Left true : Either Bool Bool).cloned id id) (Left true) = true := by
  have h := duplicate_spec Bool Bool (fun a b => a == b) (fun a b => a == b)
    id id (by decide) (by decide) (by decide) (by decide) (by decide)
    (by decide) (Left true)
  exact ⟨h.1, h.2.2.1⟩

/-- Claim C10: resolving with the two constructors is the identity — for
every container `c`, `c.resolve Left Right = c`. -/
theorem resolve_constructors_id (L R : Type) (c : Either L R) :
    c.resolve Left Right = c := by
  cases c <;> rfl

end Eithr
